import Mathlib

/-
  Verification development for the ResuMatch rule-based resume-analysis
  engine.  Shallow embedding of:
    - src/backend/services/regex_service.py  (regex fallback analyzer)
    - src/backend/main.py: calculate_keyword_match_score (lines 649-735),
      the resume_matching branch of search_resume (lines 753-815), and the
      experience extraction of analyze_job_description_with_regex
      (lines 1252-1267).

  Modelling conventions:
  - Python floats are modelled as exact rationals.  The float literals
    0.4/0.3/0.2/0.1 are read as the exact rationals they denote in the
    source text; int(x) is truncation toward zero; float(s) string parsing
    is modelled including the inf/infinity/nan forms and overflow to
    infinity, and int(float(s)) raising OverflowError on an infinite value
    (uncaught in the source, which catches only ValueError) is modelled by
    Except.error.
  - Python regular expressions are modelled by a small backtracking
    matcher (RE / runRE below) whose result list is ordered exactly by the
    backtracking preference order of re: alternatives left first, greedy
    repetition longest first, lazy repetition shortest first; re.search
    takes the first position with a nonempty result list and its head.
    Character classes restricted to the ASCII range actually exercised by
    the source patterns.
  - random.choice / random.randint and datetime.now().year are modelled as
    explicit parameters.
-/

/-! ## Python string primitives -/

/-- The apostrophe character (written via its code point). -/
def apos : Char := Char.ofNat 39

/-- A one-character string holding an apostrophe. -/
def aposS : String := String.mk [apos]

/-- Python str.lower restricted to ASCII, as exercised by the source. -/
def pyLower (s : String) : String := String.mk (s.toList.map Char.toLower)

/-- Python whitespace class for str.split / str.strip / regex class s. -/
def pyIsSpace (c : Char) : Bool :=
  c == ' ' || c == '\t' || c == '\n' || c == '\r' || c.toNat == 11 || c.toNat == 12

/-- Python regex word class w over ASCII: letters, digits, underscore. -/
def pyIsWord (c : Char) : Bool := c.isAlphanum || c == '_'

/-- Python str.strip: drop leading and trailing whitespace. -/
def pyStrip (s : String) : String :=
  String.mk (((s.toList.dropWhile pyIsSpace).reverse.dropWhile pyIsSpace).reverse)

/-- Python str.split() with no separator: whitespace-separated words. -/
def pySplitWsAux : List Char → List Char → List String
  | [], acc => if acc.isEmpty then [] else [String.mk acc.reverse]
  | c :: rest, acc =>
    if pyIsSpace c then
      if acc.isEmpty then pySplitWsAux rest [] else String.mk acc.reverse :: pySplitWsAux rest []
    else pySplitWsAux rest (c :: acc)

/-- Python str.split() with no separator. -/
def pySplitWs (s : String) : List String := pySplitWsAux s.toList []

/-- Python str.split(sep) for a one-character separator. -/
def pySplitOnCharAux (sep : Char) : List Char → List Char → List String
  | [], acc => [String.mk acc.reverse]
  | c :: rest, acc =>
    if c == sep then String.mk acc.reverse :: pySplitOnCharAux sep rest []
    else pySplitOnCharAux sep rest (c :: acc)

/-- Python str.split(sep) for a one-character separator (empty input
gives one empty piece, like Python). -/
def pySplitOnChar (sep : Char) (s : String) : List String := pySplitOnCharAux sep s.toList []

/-- Does needle occur as a contiguous sublist of hay (Python `in` on str). -/
def listContainsSub (needle : List Char) : List Char → Bool
  | [] => needle.isEmpty
  | c :: rest => needle.isPrefixOf (c :: rest) || listContainsSub needle rest

/-- Python substring test `needle in hay`. -/
def isSubstr (needle hay : String) : Bool := listContainsSub needle.toList hay.toList

/-- Python str.replace(old, new) with old a plus sign and new empty:
removes every plus character. -/
def removePlus (s : String) : String := String.mk (s.toList.filter (fun c => c != '+'))

/-- int() applied to a nonempty string of decimal digits. -/
def digitsToNat (l : List Char) : Nat := l.foldl (fun a c => a * 10 + (c.toNat - 48)) 0

/-- Decimal rendering of a natural number, digit characters only
(models Python str(int) for nonnegative values). -/
def natToDecAux : Nat → Nat → List Char
  | 0, _ => []
  | fuel + 1, n =>
    if n < 10 then [Char.ofNat (48 + n)]
    else natToDecAux fuel (n / 10) ++ [Char.ofNat (48 + n % 10)]

/-- Decimal rendering of a natural number as a string. -/
def natToDec (n : Nat) : String := String.mk (natToDecAux (n + 1) n)

/-! ## A small regex matcher with Python backtracking preference order -/

/-- Captured groups: group number paired with the captured characters. -/
abbrev Caps := List (Nat × List Char)

/-- Regex abstract syntax.  Repetition is restricted to character classes
(the only form the source patterns use), which keeps the matcher total.
digitsG and digits4G are the capture groups of the source patterns that
capture digit runs; grp is the general capture used by title patterns. -/
inductive RE where
  | eps
  | lit (s : List Char)
  | litCI (s : List Char)
  | cls (p : Char → Bool)
  | many (p : Char → Bool)
  | many1 (p : Char → Bool)
  | manyLazy (p : Char → Bool)
  | opt (r : RE)
  | seq (a b : RE)
  | alt (a b : RE)
  | grp (n : Nat) (r : RE)
  | digitsG (n : Nat)
  | digits4G (n : Nat)
  | wordB
  | bos
  | eosD

/-- Character at a position. -/
def charAt (t : List Char) (i : Nat) : Option Char := t[i]?

/-- Is the character at position i a word character. -/
def isWordAt (t : List Char) (i : Nat) : Bool :=
  match charAt t i with
  | some c => pyIsWord c
  | none => false

/-- Word boundary test at position i (between i-1 and i). -/
def wordBoundaryAt (t : List Char) (i : Nat) : Bool :=
  match i with
  | 0 => isWordAt t 0
  | j + 1 => isWordAt t j != isWordAt t (j + 1)

/-- The maximal run of characters satisfying p starting at position i. -/
def classRun (p : Char → Bool) (t : List Char) (i : Nat) : List Char :=
  (t.drop i).takeWhile p

/-- Descending list [k, k-1, ..., 1]. -/
def rangeDownTo1 : Nat → List Nat
  | 0 => []
  | k + 1 => (k + 1) :: rangeDownTo1 k

/-- Descending list [k, k-1, ..., 0]. -/
def rangeDownTo0 (k : Nat) : List Nat := rangeDownTo1 k ++ [0]

/-- Run a regex at position i of t.  Returns the list of (captures, end
position) pairs in Python backtracking preference order: the head is the
match re.search would commit to at this start position. -/
def runRE (t : List Char) : RE → Nat → List (Caps × Nat)
  | .eps, i => [([], i)]
  | .lit s, i => if (t.drop i).take s.length == s then [([], i + s.length)] else []
  | .litCI s, i =>
    if ((t.drop i).take s.length).map Char.toLower == s then [([], i + s.length)] else []
  | .cls p, i =>
    match charAt t i with
    | some c => if p c then [([], i + 1)] else []
    | none => []
  | .many p, i => (rangeDownTo0 (classRun p t i).length).map (fun j => (([] : Caps), i + j))
  | .many1 p, i => (rangeDownTo1 (classRun p t i).length).map (fun j => (([] : Caps), i + j))
  | .manyLazy p, i => (List.range ((classRun p t i).length + 1)).map (fun j => (([] : Caps), i + j))
  | .opt r, i => runRE t r i ++ [([], i)]
  | .seq a b, i =>
    (runRE t a i).flatMap (fun pa => (runRE t b pa.2).map (fun pb => (pa.1 ++ pb.1, pb.2)))
  | .alt a b, i => runRE t a i ++ runRE t b i
  | .grp n r, i => (runRE t r i).map (fun pa => (pa.1 ++ [(n, (t.drop i).take (pa.2 - i))], pa.2))
  | .digitsG n, i =>
    (rangeDownTo1 (classRun Char.isDigit t i).length).map
      (fun j => ([(n, (classRun Char.isDigit t i).take j)], i + j))
  | .digits4G n, i =>
    match charAt t i, charAt t (i + 1), charAt t (i + 2), charAt t (i + 3) with
    | some a, some b, some c, some d =>
      if a.isDigit && b.isDigit && c.isDigit && d.isDigit then [([(n, [a, b, c, d])], i + 4)]
      else []
    | _, _, _, _ => []
  | .wordB, i => if wordBoundaryAt t i then [([], i)] else []
  | .bos, i => if i == 0 then [([], i)] else []
  | .eosD, i =>
    if i == t.length || (i + 1 == t.length && charAt t i == some '\n') then [([], i)] else []

/-- re.search scanning from position i with fuel: first start position with
a match, committing to the preferred (head) result there. -/
def searchFromAux (t : List Char) (re : RE) : Nat → Nat → Option (Nat × Caps × Nat)
  | 0, _ => none
  | fuel + 1, i =>
    match runRE t re i with
    | (c, e) :: _ => some (i, c, e)
    | [] => if i < t.length then searchFromAux t re fuel (i + 1) else none

/-- re.search from a given start position. -/
def searchFrom (t : List Char) (re : RE) (i : Nat) : Option (Nat × Caps × Nat) :=
  searchFromAux t re (t.length + 1 - i) i

/-- re.search on a string. -/
def reSearch (re : RE) (s : String) : Option (Nat × Caps × Nat) := searchFrom s.toList re 0

/-- Does re.search find a match. -/
def reTest (re : RE) (s : String) : Bool := (reSearch re s).isSome

/-- re.finditer: non-overlapping matches scanning left to right; an empty
match advances by one position. -/
def findIterAux (t : List Char) (re : RE) : Nat → Nat → List (Nat × Caps × Nat)
  | 0, _ => []
  | fuel + 1, i =>
    match searchFrom t re i with
    | none => []
    | some (s, c, e) =>
      (s, c, e) :: (if s < e then findIterAux t re fuel e else findIterAux t re fuel (e + 1))

/-- re.finditer on a string. -/
def reFindIter (re : RE) (s : String) : List (Nat × Caps × Nat) :=
  findIterAux s.toList re (s.toList.length + 2) 0

/-- Look up a group number among the captures (None when the group did not
participate in the match). -/
def capLookup (n : Nat) (caps : Caps) : Option (List Char) :=
  (caps.find? (fun p => p.1 == n)).map (fun p => p.2)

/-- re.split for a separator pattern without capture groups: the pieces of
the text between the non-overlapping matches. -/
def splitBySpansAux (t : List Char) : Nat → List (Nat × Nat) → List (List Char)
  | cursor, [] => [(t.drop cursor)]
  | cursor, (s, e) :: rest => (t.drop cursor).take (s - cursor) :: splitBySpansAux t e rest

/-- re.split of a string by a separator regex. -/
def reSplit (re : RE) (s : String) : List String :=
  (splitBySpansAux s.toList 0 ((reFindIter re s).map (fun m => (m.1, m.2.2)))).map String.mk

/-! ### Pattern construction helpers -/

/-- Literal pattern from a string (case-sensitive). -/
def reStr (s : String) : RE := .lit s.toList

/-- Literal pattern from a string, case-insensitive (pattern lowercase). -/
def reStrCI (s : String) : RE := .litCI s.toList

/-- Sequencing of a list of patterns. -/
def reSeq (l : List RE) : RE := l.foldr RE.seq .eps

/-- Alternation of a list of patterns, preferring earlier entries. -/
def reAlt : List RE → RE
  | [] => .lit ['\x00']
  | [r] => r
  | r :: rest => .alt r (reAlt rest)

/-- Shorthand for one-or-more whitespace. -/
def wsp1 : RE := .many1 pyIsSpace

/-- Shorthand for zero-or-more whitespace. -/
def wsp0 : RE := .many pyIsSpace

/-! ## regex_service.py: extract_experience (lines 69-167) -/

/-- Pattern (backslash-d+)(plus?)(ws+)years?(ws+of)?(ws+)experience, the
first entry of direct_patterns. -/
def directPat1 : RE :=
  reSeq [.digitsG 1, .opt (reStr "+"), wsp1, reStr "year", .opt (reStr "s"),
    .opt (reSeq [wsp1, reStr "of"]), wsp1, reStr "experience"]

/-- Second entry of direct_patterns: experience (of)? N(plus)? years?. -/
def directPat2 : RE :=
  reSeq [reStr "experience", wsp1, .opt (reSeq [reStr "of", wsp1]), .digitsG 1,
    .opt (reStr "+"), wsp1, reStr "year", .opt (reStr "s")]

/-- Third entry of direct_patterns: (over|more than) N years? (of)? experience. -/
def directPat3 : RE :=
  reSeq [reAlt [reStr "over", reSeq [reStr "more", wsp1, reStr "than"]], wsp1, .digitsG 1,
    wsp1, reStr "year", .opt (reStr "s"), .opt (reSeq [wsp1, reStr "of"]), wsp1,
    reStr "experience"]

/-- Fourth entry of direct_patterns: N (ws)* plus (ws)* years? (of)?
(industry|professional|work). -/
def directPat4 : RE :=
  reSeq [.digitsG 1, wsp0, reStr "+", wsp0, reStr "year", .opt (reStr "s"),
    .opt (reSeq [wsp1, reStr "of"]), wsp1,
    reAlt [reStr "industry", reStr "professional", reStr "work"]]

/-- The direct_patterns list, searched in order; the first pattern with a
match wins and its group 1 is returned. -/
def searchDirectExp (nt : String) : Option Nat :=
  [directPat1, directPat2, directPat3, directPat4].findSome?
    (fun p => (reSearch p nt).bind (fun m => (capLookup 1 m.2.1).map digitsToNat))

/-- Month-name alternation of the first date pattern. -/
def monthRE : RE :=
  reAlt (["jan", "feb", "mar", "apr", "may", "jun", "jul", "aug", "sep", "oct", "nov",
    "dec"].map reStrCI)

/-- Date-range separator alternation (en dash, hyphen, or the word to). -/
def dateSepRE : RE := reAlt [reStr "–", reStr "-", reStrCI "to"]

/-- First date pattern: Month Year separator (Month Year | present | current);
the month tail [a-z]* is modelled as alphabetic characters because the
search carries re.IGNORECASE. -/
def datePat1 : RE :=
  reSeq [monthRE, .many Char.isAlpha, .opt (reStr "."), wsp1, .digits4G 1, wsp0, dateSepRE,
    wsp0,
    reAlt [reSeq [monthRE, .many Char.isAlpha, .opt (reStr "."), wsp1, .digits4G 2],
      reStrCI "present", reStrCI "current"]]

/-- Second date pattern: Year separator (Year | present | current). -/
def datePat2 : RE :=
  reSeq [.digits4G 1, wsp0, dateSepRE, wsp0,
    reAlt [.digits4G 2, reStrCI "present", reStrCI "current"]]

/-- One finditer match turned into a (start_year, end_year) pair; an absent
or non-digit group 2 means the range ends at the current year. -/
def dateMatchToRange (currentYear : Nat) (caps : Caps) : Option (Nat × Nat) :=
  (capLookup 1 caps).map (fun g1 =>
    match capLookup 2 caps with
    | some g2 =>
      if g2.all Char.isDigit && !g2.isEmpty then (digitsToNat g1, digitsToNat g2)
      else (digitsToNat g1, currentYear)
    | none => (digitsToNat g1, currentYear))

/-- All date ranges collected from both date patterns (finditer over each,
first pattern first, exactly as the source loops). -/
def dateRanges (currentYear : Nat) (nt : String) : List (Nat × Nat) :=
  ([datePat1, datePat2].flatMap (fun p => reFindIter p nt)).filterMap
    (fun m => dateMatchToRange currentYear m.2.1)

/-- Lexicographic strict order on (start, end) pairs: Python tuple
comparison used by job_dates.sort(). -/
def pairLt (a b : Nat × Nat) : Bool := a.1 < b.1 || (a.1 == b.1 && a.2 < b.2)

/-- Stable insertion of x into l: x goes before the first element that is
not strictly smaller (models the stability of Python list.sort). -/
def pySortInsert (before : α → α → Bool) (x : α) : List α → List α
  | [] => [x]
  | y :: ys => if before y x then y :: pySortInsert before x ys else x :: y :: ys

/-- Stable sort: before y x means y must stay in front of x. -/
def pySort (before : α → α → Bool) : List α → List α
  | [] => []
  | x :: xs => pySortInsert before x (pySort before xs)

/-- The span-merging loop of extract_experience (lines 116-137): walk the
sorted ranges keeping a current span; skip invalid ranges; extend the span
and add only the uncovered years when the new range starts at or before
the span end; otherwise start a new span and add its full length. -/
def spanFold : Option (Nat × Nat) → Nat → List (Nat × Nat) → Nat
  | _, total, [] => total
  | cur, total, (s, e) :: rest =>
    if e < s then spanFold cur total rest
    else
      match cur with
      | none => spanFold (some (s, e)) (total + (e - s)) rest
      | some (cs, ce) =>
        if s ≤ ce then
          if ce < e then spanFold (some (cs, e)) (total + (e - ce)) rest
          else spanFold (some (cs, ce)) total rest
        else spanFold (some (s, e)) (total + (e - s)) rest

/-- Graduation-year patterns (lines 143-147). -/
def gradPat1 : RE :=
  reSeq [reStr "graduated", wsp1, .opt (reAlt [reStr "in", reStr "on"]), wsp0, .digits4G 1]

/-- class of Year pattern. -/
def gradPat2 : RE := reSeq [reStr "class", wsp1, reStr "of", wsp1, .digits4G 1]

/-- degree/diploma/certificate received/awarded/conferred (in|on)? Year. -/
def gradPat3 : RE :=
  reSeq [reAlt [reStr "degree", reStr "diploma", reStr "certificate"], wsp1,
    reAlt [reStr "received", reStr "awarded", reStr "conferred"], wsp1,
    .opt (reAlt [reStr "in", reStr "on"]), wsp0, .digits4G 1]

/-- The graduation fallback (lines 149-156): the first pattern whose match
year lies in [1980, current year] returns current year minus that year; a
match with an out-of-range year falls through to the next pattern. -/
def gradExperience (currentYear : Nat) (nt : String) : Option Nat :=
  [gradPat1, gradPat2, gradPat3].findSome? (fun p =>
    (reSearch p nt).bind (fun m =>
      (capLookup 1 m.2.1).bind (fun g =>
        let y := digitsToNat g
        if 1980 ≤ y && y ≤ currentYear then some (max (currentYear - y) 0) else none)))

/-- extract_experience (regex_service.py lines 69-167) with the current
calendar year as an explicit parameter. -/
def extract_experience (currentYear : Nat) (nt _ot : String) : Nat :=
  match searchDirectExp nt with
  | some n => n
  | none =>
    let dates := dateRanges currentYear nt
    if !dates.isEmpty then max (spanFold none 0 (pySort pairLt dates)) 1
    else
      match gradExperience currentYear nt with
      | some n => n
      | none =>
        let lineCount := (pySplitOnChar '\n' nt).length
        let wordCount := (pySplitWs nt).length
        if lineCount > 70 || wordCount > 700 then 5
        else if lineCount > 50 || wordCount > 500 then 3
        else 1

/-! ## regex_service.py: extract_education_level (lines 169-200) -/

/-- PhD keyword pattern: word-bounded ph.d / doctor of philosophy /
doctoral (searched with re.IGNORECASE). -/
def eduPhdRE : RE :=
  reSeq [.wordB,
    reAlt [reSeq [reStrCI "ph", .opt (reStr "."), reStrCI "d", .opt (reStr ".")],
      reSeq [reStrCI "doctor", wsp1, reStrCI "of", wsp1, reStrCI "philosophy"],
      reStrCI "doctoral"],
    .wordB]

/-- Masters keyword pattern. -/
def eduMastersRE : RE :=
  reSeq [.wordB,
    reAlt [reSeq [reStrCI "master", .opt (.lit [apos]), .opt (reStrCI "s")],
      reSeq [reStrCI "ms", .opt (reStr ".")],
      reSeq [reStrCI "m", reStr ".", reStrCI "s", .opt (reStr ".")],
      reSeq [reStrCI "m", reStr ".", reStrCI "a", .opt (reStr ".")],
      reStrCI "mba",
      reSeq [reStrCI "m", reStr ".", reStrCI "b", reStr ".", reStrCI "a", .opt (reStr ".")]],
    .wordB]

/-- Bachelors keyword pattern. -/
def eduBachelorRE : RE :=
  reSeq [.wordB,
    reAlt [reSeq [reStrCI "bachelor", .opt (.lit [apos]), .opt (reStrCI "s")],
      reStrCI "ba",
      reSeq [reStrCI "b", reStr ".", reStrCI "a", .opt (reStr ".")],
      reStrCI "bs",
      reSeq [reStrCI "b", reStr ".", reStrCI "s", .opt (reStr ".")],
      reSeq [reStrCI "b", reStr ".", reStrCI "e", .opt (reStr ".")],
      reStrCI "btech",
      reSeq [reStrCI "b", reStr ".", reStrCI "tech", .opt (reStr ".")]],
    .wordB]

/-- Associates keyword pattern. -/
def eduAssociateRE : RE :=
  reSeq [.wordB,
    reAlt [reSeq [reStrCI "associate", .opt (.lit [apos]), .opt (reStrCI "s")],
      reSeq [reStrCI "a", reStr ".", reStrCI "a", .opt (reStr ".")],
      reSeq [reStrCI "a", reStr ".", reStrCI "s", .opt (reStr ".")],
      reSeq [reStrCI "a", reStr ".", reStrCI "a", reStr ".", reStrCI "s", .opt (reStr ".")]],
    .wordB]

/-- High-school keyword pattern. -/
def eduHighSchoolRE : RE :=
  reSeq [.wordB,
    reAlt [reSeq [reStrCI "high", wsp1, reStrCI "school"],
      reSeq [reStrCI "secondary", wsp1, reStrCI "school"],
      reStrCI "diploma",
      reSeq [reStrCI "g", .opt (reStr "."), reStrCI "e", .opt (reStr "."), reStrCI "d",
        .opt (reStr ".")]],
    .wordB]

/-- The Masters label (contains an apostrophe). -/
def mastersLabel : String := "Master" ++ aposS ++ "s"

/-- The Bachelors label (contains an apostrophe). -/
def bachelorLabel : String := "Bachelor" ++ aposS ++ "s"

/-- The Associates label (contains an apostrophe). -/
def associateLabel : String := "Associate" ++ aposS ++ "s"

/-- The education_patterns dictionary in its insertion order (highest to
lowest credential), exactly as iterated by the source. -/
def educationPatterns : List (String × RE) :=
  [("PhD", eduPhdRE), (mastersLabel, eduMastersRE), (bachelorLabel, eduBachelorRE),
   (associateLabel, eduAssociateRE), ("High School", eduHighSchoolRE)]

/-- College-reference patterns (lines 188-191). -/
def collegePat1 : RE :=
  reSeq [.wordB,
    reAlt [reStrCI "university", reStrCI "college", reStrCI "institute", reStrCI "school"],
    wsp1, reStrCI "of", .wordB]

/-- Bare college-word pattern. -/
def collegePat2 : RE :=
  reSeq [.wordB, reAlt [reStrCI "university", reStrCI "college", reStrCI "institute"], .wordB]

/-- extract_education_level (regex_service.py lines 169-200): first
matching credential pattern wins in the fixed order PhD, Masters,
Bachelors, Associates, High School; otherwise a college reference defaults
to Bachelors; otherwise High School. -/
def extract_education_level (nt _ot : String) : String :=
  match educationPatterns.find? (fun p => reTest p.2 nt) with
  | some p => p.1
  | none =>
    if [collegePat1, collegePat2].any (fun p => reTest p nt) then bachelorLabel
    else "High School"

/-! ## regex_service.py: extract_skills (lines 202-266) -/

/-- tech_skills list (lines 207-218), entries written exactly as the
Python pattern strings, including the escaped plus signs. -/
def techSkills : List String :=
  ["python", "java", "javascript", "typescript", "c\\+\\+", "c#", "ruby", "php", "swift",
   "kotlin", "go", "rust",
   "html", "css", "sql", "nosql", "react", "angular", "vue", "node", "express", "django",
   "flask", "spring",
   "tensorflow", "pytorch", "keras", "scikit-learn", "pandas", "numpy", "aws", "azure",
   "gcp", "docker", "kubernetes",
   "jenkins", "ci/cd", "git", "github", "gitlab", "bitbucket", "jira", "agile", "scrum",
   "kanban", "rest", "graphql",
   "api", "microservices", "serverless", "linux", "unix", "bash", "shell", "powershell",
   "mongodb", "mysql",
   "postgresql", "oracle", "redis", "elasticsearch", "hadoop", "spark", "kafka", "rabbitmq",
   "figma", "sketch",
   "photoshop", "illustrator", "ui/ux", "responsive design", "mobile development",
   "web development",
   "machine learning", "deep learning", "nlp", "computer vision", "data science",
   "data analysis",
   "data visualization", "tableau", "power bi", "excel", "vba", "matlab", "r", "scala",
   "blockchain",
   "cybersecurity", "networking", "cloud computing", "devops", "sysadmin", "testing", "qa",
   "automation"]

/-- soft_skills list (lines 221-226). -/
def softSkills : List String :=
  ["communication", "teamwork", "leadership", "problem solving", "critical thinking",
   "time management",
   "project management", "analytical", "detail oriented", "creativity", "adaptability",
   "flexibility",
   "organization", "planning", "decision making", "conflict resolution", "negotiation",
   "presentation",
   "customer service", "interpersonal", "multitasking", "collaboration", "mentoring",
   "coaching"]

/-- all_skills = tech_skills + soft_skills. -/
def allSkills : List String := techSkills ++ softSkills

/-- Interpret a taxonomy entry as the literal characters it matches: a
backslash escapes the following character (the entries contain no other
regex syntax). -/
def unescapeSkill : List Char → List Char
  | [] => []
  | '\\' :: c :: rest => c :: unescapeSkill rest
  | c :: rest => c :: unescapeSkill rest

/-- The word-bounded, case-insensitive search pattern for one taxonomy
entry. -/
def skillRE (sk : String) : RE := reSeq [.wordB, .litCI (unescapeSkill sk.toList), .wordB]

/-- Python str.capitalize: first character uppercased, the rest lowered. -/
def pyCapitalize (s : String) : String :=
  match s.toList with
  | [] => ""
  | c :: rest => String.mk (c.toUpper :: rest.map Char.toLower)

/-- Stop-words left untouched by the title-casing of matched skills. -/
def skillStopWords : List String := ["and", "or", "the", "of", "in", "on", "at"]

/-- Title-casing of a matched taxonomy entry (line 236-237): capitalize
each whitespace-separated word unless it is a stop-word, join by spaces. -/
def titledSkill (sk : String) : String :=
  String.intercalate " "
    ((pySplitWs sk).map (fun w => if skillStopWords.contains (pyLower w) then w
      else pyCapitalize w))

/-- Phase one of extract_skills: taxonomy entries found in the normalized
text, title-cased, in taxonomy order. -/
def phaseASkills (nt : String) : List String :=
  (allSkills.filter (fun sk => reTest (skillRE sk) nt)).map titledSkill

/-- First skills-section header pattern (line 242), searched with
re.IGNORECASE and re.DOTALL on the original text; the class [A-Z] matches
any letter because of IGNORECASE. -/
def sectionPat1 : RE :=
  reSeq [.opt (reSeq [reStrCI "technical", wsp1]), reStrCI "skills", wsp0,
    reAlt [reStr ":", reStr "&", reStr "•", reStr "\n"],
    .grp 1 (.manyLazy (fun _ => true)),
    reAlt [reStr "\n\n", reSeq [reStr "\n", .cls Char.isAlpha]]]

/-- Second skills-section header pattern (line 243). -/
def sectionPat2 : RE :=
  reSeq [reAlt [reStrCI "technical", reStrCI "professional"], wsp1, reStrCI "skills",
    .grp 1 (.manyLazy (fun _ => true)),
    reAlt [reStr "\n\n", reSeq [reStr "\n", .cls Char.isAlpha]]]

/-- Third skills-section header pattern (line 244). -/
def sectionPat3 : RE :=
  reSeq [reAlt [reStrCI "expertise", reStrCI "proficiencies", reStrCI "competencies"],
    .grp 1 (.manyLazy (fun _ => true)),
    reAlt [reStr "\n\n", reSeq [reStr "\n", .cls Char.isAlpha]]]

/-- Separator for items inside a skills section (line 252): a comma or
bullet, or a run of at least two whitespace characters. -/
def skillItemSepRE : RE :=
  reAlt [.cls (fun c => c == ',' || c == '•'), reSeq [.cls pyIsSpace, .many1 pyIsSpace]]

/-- Appending the items of one skills section (lines 253-257): strip each
item, keep it when nonempty, longer than two characters and new up to
case. -/
def addSectionItems (found : List String) : List String → List String
  | [] => found
  | item :: rest =>
    let it := pyStrip item
    if it != "" && it.length > 2 && !((found.map pyLower).contains (pyLower it)) then
      addSectionItems (found ++ [it]) rest
    else addSectionItems found rest

/-- Phase two of extract_skills (lines 247-257): for each section pattern
matching the original text, split the captured body and append new items. -/
def foundSkills (nt ot : String) : List String :=
  [sectionPat1, sectionPat2, sectionPat3].foldl (fun acc pat =>
    match (reSearch pat ot).bind (fun m => capLookup 1 m.2.1) with
    | some seg => addSectionItems acc (reSplit skillItemSepRE (String.mk seg))
    | none => acc) (phaseASkills nt)

/-- The final exact-match deduplication loop (lines 260-263). -/
def dedupAppend (u : List String) : List String → List String
  | [] => u
  | s :: rest => if u.contains s then dedupAppend u rest else dedupAppend (u ++ [s]) rest

/-- extract_skills (regex_service.py lines 202-266). -/
def extract_skills (nt ot : String) : List String :=
  (dedupAppend [] (foundSkills nt ot)).take 15

/-! ## regex_service.py: determine_job_category (lines 268-366) -/

/-- The job_categories dictionary in insertion order (lines 273-328). -/
def jobCategories : List (String × List String) :=
  [("Software Engineering",
    ["software engineer", "developer", "programmer", "coding", "software development",
     "web developer", "full stack", "frontend", "backend", "mobile developer",
     "app developer", "devops", "software architect", "programming", "coder"]),
   ("Data Science",
    ["data scientist", "machine learning", "deep learning", "ai", "artificial intelligence",
     "data mining", "statistical analysis", "data analytics", "big data", "data modeling",
     "predictive modeling", "nlp", "natural language processing", "computer vision"]),
   ("Design",
    ["designer", "ui", "ux", "user interface", "user experience", "graphic design",
     "web design", "product design", "visual design", "interaction design", "creative"]),
   ("Marketing",
    ["marketing", "digital marketing", "seo", "sem", "social media", "content marketing",
     "brand", "advertising", "market research", "growth hacking", "marketing strategy",
     "marketing campaign", "marketing manager"]),
   ("Sales",
    ["sales", "account executive", "business development", "sales representative",
     "account manager", "sales manager", "client acquisition", "revenue generation",
     "sales strategy", "customer acquisition", "lead generation"]),
   ("Finance",
    ["finance", "financial", "accounting", "accountant", "financial analyst",
     "investment", "banking", "portfolio", "financial planning", "budget", "auditing",
     "tax", "cpa", "chartered accountant"]),
   ("Healthcare",
    ["healthcare", "medical", "doctor", "nurse", "physician", "clinical",
     "patient care", "health", "hospital", "pharmacy", "pharmaceutical",
     "healthcare management", "medical professional"]),
   ("Education",
    ["education", "teacher", "professor", "instructor", "teaching", "tutor",
     "curriculum", "academic", "school", "university", "college", "faculty",
     "educational", "lecturer", "training"]),
   ("Human Resources",
    ["hr", "human resources", "recruiting", "recruitment", "talent acquisition",
     "hiring", "personnel", "hr manager", "benefits", "compensation", "employee relations",
     "hr specialist", "human capital"]),
   ("Project Management",
    ["project manager", "project management", "program manager", "scrum master",
     "agile", "pmp", "prince2", "project coordination", "project delivery",
     "project planning", "project lead"]),
   ("Operations",
    ["operations", "operations manager", "supply chain", "logistics", "procurement",
     "inventory management", "warehouse", "production", "operational excellence",
     "process improvement", "business operations"])]

/-- findall count of word-bounded occurrences of an escaped keyword
(line 335), searched case-insensitively. -/
def countKeyword (kw : String) (nt : String) : Nat :=
  (reFindIter (reSeq [.wordB, reStrCI kw, .wordB]) nt).length

/-- Total keyword score of one category. -/
def categoryScore (kws : List String) (nt : String) : Nat :=
  (kws.map (fun kw => countKeyword kw nt)).sum

/-- The selection loop (lines 340-346): strict improvement over the
running maximum, starting from Professional with score zero. -/
def bestCategory (nt : String) : String × Nat :=
  jobCategories.foldl
    (fun best p =>
      let sc := categoryScore p.2 nt
      if sc > best.2 then (p.1, sc) else best)
    ("Professional", 0)

/-- First job-title pattern (line 351): an anchored title/position field;
dot does not cross newlines (no DOTALL here). -/
def titlePat1 : RE :=
  reSeq [reAlt [.bos, reStr "\n"], reAlt [reStrCI "title", reStrCI "position"], reStr ":",
    wsp0, .grp 1 (.manyLazy (fun c => c != '\n')), reAlt [reStr "\n", .eosD]]

/-- Second job-title pattern (line 352): the first line of the text. -/
def titlePat2 : RE :=
  reSeq [reAlt [.bos, reStr "\n"], .grp 1 (.manyLazy (fun c => c != '\n')),
    reAlt [reStr "\n", .eosD]]

/-- Third job-title pattern (line 353): seniority prefix followed by a
role word. -/
def titlePat3 : RE :=
  reSeq [.wordB,
    reAlt [reStrCI "senior", reStrCI "junior", reStrCI "lead", reStrCI "principal",
      reStrCI "staff", reStrCI "chief", reStrCI "head",
      reSeq [reStrCI "director", wsp1, reStrCI "of"]],
    wsp1,
    .grp 1 (reAlt
      [reSeq [.manyLazy (fun c => c != '\n'), reStrCI "engineer"],
       reSeq [.manyLazy (fun c => c != '\n'), reStrCI "developer"],
       reSeq [.manyLazy (fun c => c != '\n'), reStrCI "scientist"],
       reSeq [.manyLazy (fun c => c != '\n'), reStrCI "analyst"],
       reSeq [.manyLazy (fun c => c != '\n'), reStrCI "manager"],
       reSeq [.manyLazy (fun c => c != '\n'), reStrCI "designer"]]),
    .wordB]

/-- The low-confidence fallback over title patterns (lines 349-364): the
first matching pattern whose lowered captured title contains a category
keyword selects that category. -/
def titleCategory (ot : String) : Option String :=
  [titlePat1, titlePat2, titlePat3].findSome? (fun pat =>
    ((reSearch pat ot).bind (fun m => capLookup 1 m.2.1)).bind (fun g =>
      let title := pyLower (String.mk g)
      (jobCategories.find? (fun p => p.2.any (fun kw => isSubstr kw title))).map
        (fun p => p.1)))

/-- determine_job_category (regex_service.py lines 268-366). -/
def determine_job_category (nt ot : String) : String :=
  let best := bestCategory nt
  if best.2 < 3 then
    match titleCategory ot with
    | some c => c
    | none => best.1
  else best.1

/-! ## regex_service.py: generate_summary (lines 368-417) and the
analyzer entry point (lines 12-51) -/

/-- The experience-years banding of generate_summary (lines 385-396). -/
def expText (e : Nat) : String :=
  if e == 1 then "1"
  else if e < 3 then "2-3"
  else if e < 5 then "3-5"
  else if e < 8 then "5-7"
  else if e < 12 then "8-10"
  else "10+"

/-- Grammatical joining of the selected skills (lines 402-407). -/
def joinSkills : List String → String
  | [] => "various technical and professional competencies"
  | [s] => s
  | l => String.intercalate ", " l.dropLast ++ " and " ++ (l.getLast?.getD "")

/-- generate_summary (lines 368-417); the random template choice and the
random skill count are explicit parameters tmpl and kChoice. -/
def generate_summary (tmpl kChoice : Nat) (_resumeText : String) (skills : List String)
    (experienceYears : Nat) (educationLevel jobCategory : String) : String :=
  let e := expText experienceYears
  let numSkills := min skills.length (if skills.length ≥ 3 then 3 + kChoice % 3
    else skills.length)
  let sk := joinSkills (skills.take numSkills)
  match tmpl % 5 with
  | 0 => jobCategory ++ " professional with " ++ e ++ " years of experience and " ++
      educationLevel ++ " education. Skilled in " ++ sk ++ "."
  | 1 => "Experienced " ++ jobCategory ++ " specialist with " ++ educationLevel ++
      "-level education and " ++ e ++ " years in the field. Proficient in " ++ sk ++ "."
  | 2 => educationLevel ++ "-educated " ++ jobCategory ++ " expert with " ++ e ++
      " years of professional experience. Strong background in " ++ sk ++ "."
  | 3 => "Dedicated " ++ jobCategory ++ " professional with " ++ e ++
      " years of hands-on experience. " ++ educationLevel ++
      " graduate with expertise in " ++ sk ++ "."
  | _ => "Results-driven " ++ jobCategory ++ " specialist with " ++ educationLevel ++
      " degree and " ++ e ++ " years of industry experience. Skilled in " ++ sk ++ "."

/-- The structured result of analyze_resume_with_regex. -/
structure ResumeAnalysis where
  summary : String
  skills : List String
  experience : Nat
  educationLevel : String
  category : String
deriving DecidableEq, Repr

/-- The text handed to every attribute extractor by
analyze_resume_with_regex (regex_service.py line 27): the lowered input. -/
def extractorNormalizedText (t : String) : String := pyLower t

/-- Collapse each maximal whitespace run into a single space (re.sub of
one-or-more whitespace by one space). -/
def collapseWsAux : List Char → Bool → List Char
  | [], _ => []
  | c :: rest, prevSpace =>
    if pyIsSpace c then
      if prevSpace then collapseWsAux rest true else ' ' :: collapseWsAux rest true
    else c :: collapseWsAux rest false

/-- normalize_text (regex_service.py lines 53-67): lower, collapse
whitespace runs, replace newlines by spaces (a no-op after the collapse),
then replace every character outside word/whitespace/dot classes by a
space.  The source defines this helper but never calls it. -/
def normalize_text (t : String) : String :=
  let l := collapseWsAux (pyLower t).toList false
  String.mk (l.map (fun c => if pyIsWord c || pyIsSpace c || c == '.' then c else ' '))

/-- Modelled from the spec (section 4.1 and claim C4): a case-folded copy
of the input in which every run of whitespace or newlines has been
collapsed to a single space.  This is the normalization the specification
says the extractors consume; it is compared against
extractorNormalizedText, which is what the code actually hands them. -/
def specCollapsedNormalization (t : String) : String :=
  String.mk (collapseWsAux (pyLower t).toList false)

/-- analyze_resume_with_regex (regex_service.py lines 12-51), with the
current year and the two random draws of generate_summary as explicit
parameters. -/
def analyze_resume_with_regex (currentYear tmpl kChoice : Nat)
    (resumeText : String) : ResumeAnalysis :=
  let nt := extractorNormalizedText resumeText
  let skills := extract_skills nt resumeText
  let experienceYears := extract_experience currentYear nt resumeText
  let educationLevel := extract_education_level nt resumeText
  let jobCategory := determine_job_category nt resumeText
  { summary := generate_summary tmpl kChoice resumeText skills experienceYears
      educationLevel jobCategory,
    skills := skills,
    experience := experienceYears,
    educationLevel := educationLevel,
    category := jobCategory }

/-! ## Python float parsing and int coercion -/

/-- The value classes of Python float(str) relevant to the scorer. -/
inductive PyFloatVal where
  | finite (q : ℚ)
  | inf
  | ninf
  | nan
deriving DecidableEq

/-- A digit run possibly containing single underscores between digits
(Python numeric literal strings); returns the digits with underscores
removed and the unconsumed rest. -/
def digitRunGo (acc : List Char) : List Char → List Char × List Char
  | '_' :: c :: rest =>
    if c.isDigit then digitRunGo (c :: acc) rest else (acc.reverse, '_' :: c :: rest)
  | c :: rest => if c.isDigit then digitRunGo (c :: acc) rest else (acc.reverse, c :: rest)
  | [] => (acc.reverse, [])

/-- Parse a digit run (at least one leading digit). -/
def parseDigitRun : List Char → Option (List Char × List Char)
  | c :: rest => if c.isDigit then some (digitRunGo [c] rest) else none
  | [] => none

/-- Parse the mantissa: integer digits, fraction digits, rest; at least
one digit must be present. -/
def parseMantissa (l : List Char) : Option (List Char × List Char × List Char) :=
  match parseDigitRun l with
  | some (ip, rest) =>
    match rest with
    | '.' :: r2 =>
      match parseDigitRun r2 with
      | some (fp, r3) => some (ip, fp, r3)
      | none => some (ip, [], r2)
    | _ => some (ip, [], rest)
  | none =>
    match l with
    | '.' :: r2 =>
      match parseDigitRun r2 with
      | some (fp, r3) => some ([], fp, r3)
      | none => none
    | _ => none

/-- Parse an optional exponent part; fails on a malformed exponent. -/
def parseExponent : List Char → Option (Int × List Char)
  | [] => some (0, [])
  | c :: rest =>
    if c.toLower == 'e' then
      match rest with
      | '-' :: r2 => (parseDigitRun r2).map (fun p => (-(digitsToNat p.1 : Int), p.2))
      | '+' :: r2 => (parseDigitRun r2).map (fun p => ((digitsToNat p.1 : Int), p.2))
      | r2 => (parseDigitRun r2).map (fun p => ((digitsToNat p.1 : Int), p.2))
    else some (0, c :: rest)

/-- The smallest magnitude a double rounds to infinity: 2^1024 - 2^970
(the midpoint above the largest finite double, which ties to even). -/
def doubleOverflowBound : ℚ := 2 ^ (1024 : ℕ) - 2 ^ (970 : ℕ)

/-- The discrete part of Python float(s): strip, take the sign, rule out
the inf/infinity/nan keywords, and split a decimal literal into integer
digits, fraction digits and exponent.  Keyword results are returned
directly; a numeric literal yields (negative?, intDigits, fracDigits,
exponent). -/
def pyFloatDecode (s : String) :
    Option (PyFloatVal ⊕ (Bool × List Char × List Char × Int)) :=
  let l := ((s.toList.dropWhile pyIsSpace).reverse.dropWhile pyIsSpace).reverse
  let sgnNeg := l.head? == some '-'
  let l1 := if l.head? == some '-' || l.head? == some '+' then l.tail else l
  let low := l1.map Char.toLower
  if low == "inf".toList || low == "infinity".toList then
    some (.inl (if sgnNeg then .ninf else .inf))
  else if low == "nan".toList then some (.inl .nan)
  else
    match parseMantissa l1 with
    | none => none
    | some (ip, fp, rest) =>
      if ip.isEmpty && fp.isEmpty then none
      else
        match parseExponent rest with
        | none => none
        | some (e, rest2) =>
          if !rest2.isEmpty then none
          else some (.inr (sgnNeg, ip, fp, e))

/-- The numeric part of Python float(s): the exact value of the decoded
literal, overflowing to an infinity at doubleOverflowBound.  Finite
values are kept exact (rationals) rather than rounded to binary. -/
def pyFloatAssemble (sgnNeg : Bool) (ip fp : List Char) (e : Int) : PyFloatVal :=
  let mag : ℚ := ((digitsToNat ip : ℚ) + (digitsToNat fp : ℚ) / 10 ^ fp.length) * 10 ^ e
  if mag ≥ doubleOverflowBound then (if sgnNeg then .ninf else .inf)
  else .finite (if sgnNeg then -mag else mag)

/-- Python float(s): optional sign; inf/infinity/nan keywords
(case-insensitive); otherwise a decimal mantissa with optional exponent,
everything consumed. -/
def pyFloatParse (s : String) : Option PyFloatVal :=
  (pyFloatDecode s).map (fun d =>
    match d with
    | .inl v => v
    | .inr (sgnNeg, ip, fp, e) => pyFloatAssemble sgnNeg ip fp e)

/-- Python int() on a rational: truncation toward zero. -/
def ratTrunc (q : ℚ) : Int := if q < 0 then Int.ceil q else Int.floor q

/-! ## main.py: calculate_keyword_match_score (lines 649-735) -/

/-- A resume record as consumed by the scorer; fields the source reads via
dict.get, so each may be absent. -/
structure Resume where
  summary : Option String := none
  skills : Option (List String) := none
  experience : Option String := none
  educationLevel : Option String := none
deriving DecidableEq, Repr

/-- The scorer result (score, semicolon-joined reason, source tag). -/
structure MatchResult where
  score : Int
  reason : String
  source : String
deriving DecidableEq, Repr

/-- Word-run pattern of re.findall on the query (line 658). -/
def wordRunRE : RE := reSeq [.wordB, .many1 pyIsWord, .wordB]

/-- The text of one finditer match. -/
def matchSlice (s : String) (m : Nat × Caps × Nat) : String :=
  String.mk ((s.toList.drop m.1).take (m.2.2 - m.1))

/-- All word tokens of the query. -/
def wordTokens (q : String) : List String := (reFindIter wordRunRE q).map (matchSlice q)

/-- summary_keywords (line 658): lowered word tokens longer than two
characters. -/
def summaryKeywords (q : String) : List String :=
  ((wordTokens q).filter (fun w => w.length > 2)).map pyLower

/-- Number of query keywords contained in the lowered summary. -/
def summaryHitsIn (q s : String) : Nat :=
  ((summaryKeywords q).filter (fun k => isSubstr k (pyLower s))).length

/-- Summary sub-score (lines 660-665): zero when the summary is absent or
empty (falsy), else min(hits * 10, 100). -/
def summary_subscore (q : String) (r : Resume) : ℚ :=
  match r.summary with
  | some s => if s != "" then ((min (summaryHitsIn q s * 10) 100 : ℕ) : ℚ) else 0
  | none => 0

/-- query_skills (line 671): split the query on single spaces, strip,
keep nonempty, lower. -/
def querySkills (q : String) : List String :=
  ((pySplitOnChar ' ' q).filter (fun tk => pyStrip tk != "")).map
    (fun tk => pyLower (pyStrip tk))

/-- matched_skills_list (lines 673-676): resume skills containing some
query token as a substring (case-insensitive); empty when the skills
field is absent or the empty list (falsy). -/
def matchedSkills (q : String) (r : Resume) : List String :=
  match r.skills with
  | some l =>
    if !l.isEmpty then
      l.filter (fun rs => (querySkills q).any (fun qs => isSubstr qs (pyLower rs)))
    else []
  | none => []

/-- Skills sub-score (lines 678-681). -/
def skills_subscore (q : String) (r : Resume) : ℚ :=
  match r.skills with
  | some l => if !l.isEmpty then ((min ((matchedSkills q r).length * 20) 100 : ℕ) : ℚ) else 0
  | none => 0

/-- The experience string the scorer parses (line 686): the experience
field with the default "0", plus signs removed, stripped. -/
def experienceField (r : Resume) : String := r.experience.getD "0"

/-- resume_experience (lines 686-691): int(float(s)) with ValueError
(malformed string or NaN) defaulting to 0 and OverflowError (infinite
value) uncaught, modelled as Except.error. -/
def parse_resume_experience (s : String) : Except Unit Int :=
  match pyFloatParse (pyStrip (removePlus s)) with
  | some (.finite q) => .ok (ratTrunc q)
  | some .nan => .ok 0
  | some .inf => .error ()
  | some .ninf => .error ()
  | none => .ok 0

/-- The required-experience pattern on the query (line 694), searched with
re.IGNORECASE (modelled by searching the lowered query). -/
def expQueryRE : RE :=
  reSeq [.digitsG 1, wsp0, .opt (reStr "+"), wsp0, reStr "year", .opt (reStr "s"),
    .opt (reStr " experience")]

/-- required_experience (lines 694-697). -/
def required_experience (q : String) : Int :=
  match (reSearch expQueryRE (pyLower q)).bind (fun m => capLookup 1 m.2.1) with
  | some g => (digitsToNat g : Int)
  | none => 0

/-- Experience sub-score (lines 699-706): full meets-or-exceeds score,
else proportional when both sides are positive, else zero. -/
def experience_subscore (resExp req : Int) : ℚ :=
  if resExp ≥ req then 100
  else if resExp > 0 ∧ req > 0 then ((resExp : ℚ) / (req : ℚ)) * 100
  else 0

/-- The lowered resume education value (line 711). -/
def resumeEduLower (r : Resume) : String := pyLower (r.educationLevel.getD "")

/-- Education sub-score (lines 710-723). -/
def education_subscore (q : String) (r : Resume) : ℚ :=
  let ql := pyLower q
  let rl := resumeEduLower r
  if isSubstr "master" ql && isSubstr "master" rl then 100
  else if isSubstr "bachelor" ql && isSubstr "bachelor" rl then 100
  else if isSubstr "phd" ql && isSubstr "phd" rl then 100
  else if !(isSubstr "master" ql) && !(isSubstr "bachelor" ql) && !(isSubstr "phd" ql) then
    if rl != "" then 50 else 0
  else 0

/-- The weighted raw score before int() and clamping (the running `score`
variable at line 729), or an error when the experience parse raises. -/
def raw_weighted_score (q : String) (r : Resume) : Except Unit ℚ :=
  (parse_resume_experience (experienceField r)).map (fun resExp =>
    summary_subscore q r * 0.4 + skills_subscore q r * 0.3 +
      experience_subscore resExp (required_experience q) * 0.2 +
      education_subscore q r * 0.1)

/-- final_score (line 729): min(100, max(0, int(score))). -/
def final_score_of_raw (raw : ℚ) : Int := min 100 (max 0 (ratTrunc raw))

/-- The match_reasons list (built at lines 667-668, 682-683, 701-704,
725-726, in that order). -/
def match_reasons (q : String) (r : Resume) (resExp : Int) : List String :=
  let req := required_experience q
  (match r.summary with
   | some s =>
     if s != "" && summaryHitsIn q s * 10 > 0 then
       ["Summary relevance: " ++ toString (summaryHitsIn q s) ++ " keyword(s) matched."]
     else []
   | none => []) ++
  (match r.skills with
   | some l =>
     if !l.isEmpty && !(matchedSkills q r).isEmpty then
       ["Skills match: " ++ toString (matchedSkills q r).length ++
        " relevant skill(s) found: " ++ String.intercalate ", " (matchedSkills q r) ++ "."]
     else []
   | none => []) ++
  (if resExp ≥ req then ["Experience: Matches required " ++ toString req ++ "+ years."]
   else if resExp > 0 ∧ req > 0 then
     ["Experience: " ++ toString resExp ++ " years, " ++ toString req ++ " years required."]
   else []) ++
  (if education_subscore q r > 0 then
     ["Education: " ++ (r.educationLevel.getD "N/A") ++ " matches query."]
   else [])

/-- calculate_keyword_match_score (main.py lines 649-735). -/
def calculate_keyword_match_score (q : String) (r : Resume) : Except Unit MatchResult :=
  match parse_resume_experience (experienceField r) with
  | .error e => .error e
  | .ok resExp =>
    let raw := summary_subscore q r * 0.4 + skills_subscore q r * 0.3 +
      experience_subscore resExp (required_experience q) * 0.2 +
      education_subscore q r * 0.1
    let reasons := match_reasons q r resExp
    .ok
      { score := final_score_of_raw raw,
        reason := if reasons.isEmpty then
            "No specific match reasons found for keyword search."
          else String.intercalate "; " reasons,
        source := "keyword_matching" }

/-! ## main.py: the resume_matching branch of search_resume
(lines 753-815) -/

/-- One entry of the results list built by search_resume (lines 802-808). -/
structure SearchResult where
  resume : Resume
  matchScore : Int
  matchReason : String
  scoreSource : String
deriving DecidableEq, Repr

/-- Scoring loop over the stored resumes (lines 757-808, search_type
resume_matching): one SearchResult per resume, in storage order. -/
def score_all_resumes (q : String) (rs : List Resume) : Except Unit (List SearchResult) :=
  rs.mapM (fun r =>
    (calculate_keyword_match_score q r).map (fun m =>
      { resume := r, matchScore := m.score, matchReason := m.reason,
        scoreSource := m.source }))

/-- Comparison used to model results.sort(key=matchScore, reverse=True):
y stays in front of x exactly when its score is strictly larger, which is
the unique stable descending order. -/
def scoreBefore (y x : SearchResult) : Bool := x.matchScore < y.matchScore

/-- The ranking driver: score every resume, then stable-sort descending by
match score (main.py line 811). -/
def search_resume_rank (q : String) (rs : List Resume) : Except Unit (List SearchResult) :=
  (score_all_resumes q rs).map (pySort scoreBefore)

/-! ## main.py: experience extraction of analyze_job_description_with_regex
(lines 1252-1267) -/

/-- First experience pattern (line 1254). -/
def jdPat1 : RE :=
  reSeq [.digitsG 1, .many (fun c => c == '+' || c == '-' || pyIsSpace c),
    .opt (reSeq [reStrCI "to", wsp1, .digitsG 2]), wsp0, reStrCI "year", .opt (reStrCI "s"),
    wsp0, .opt (reSeq [reStrCI "of", wsp1]), reAlt [reStrCI "experience", reStrCI "exp"]]

/-- Second experience pattern (line 1255). -/
def jdPat2 : RE :=
  reSeq [.digitsG 1, .cls (fun c => c == '+' || c == '-'), wsp0, reStrCI "year",
    .opt (reStrCI "s"), wsp0, reAlt [reStrCI "experience", reStrCI "exp"]]

/-- Third experience pattern (line 1256). -/
def jdPat3 : RE := reSeq [reStrCI "minimum", wsp1, .digitsG 1, wsp0, reStrCI "year",
  .opt (reStrCI "s")]

/-- Fourth experience pattern (line 1257). -/
def jdPat4 : RE := reSeq [reStrCI "at least", wsp1, .digitsG 1, wsp0, reStrCI "year",
  .opt (reStrCI "s")]

/-- The experience scan (lines 1261-1267): the four patterns are tried in
order and the first with a match wins; group 2 is consulted only for the
first pattern, whose group count exceeds one (for the others
len(match.groups()) is 1).  Group 1 always participates in a match of
these patterns. -/
def jdScan (jd : String) : Option (List Char × Option (List Char)) :=
  match (reSearch jdPat1 jd).bind (fun m => (capLookup 1 m.2.1).map
      (fun g1 => (g1, capLookup 2 m.2.1))) with
  | some r => some r
  | none =>
    match (reSearch jdPat2 jd).bind (fun m => (capLookup 1 m.2.1).map
        (fun g1 => (g1, (none : Option (List Char))))) with
    | some r => some r
    | none =>
      match (reSearch jdPat3 jd).bind (fun m => (capLookup 1 m.2.1).map
          (fun g1 => (g1, (none : Option (List Char))))) with
      | some r => some r
      | none =>
        (reSearch jdPat4 jd).bind (fun m => (capLookup 1 m.2.1).map
          (fun g1 => (g1, (none : Option (List Char)))))

/-- The experience field of analyze_job_description_with_regex
(lines 1260-1267): default "2-4 years"; a matched minimum with a falsy or
absent maximum gets min plus two as its maximum. -/
def jd_experience (jd : String) : String :=
  match jdScan jd with
  | none => "2-4 years"
  | some (mn, mx) =>
    let mxs := match mx with
      | some g2 => if g2.isEmpty then natToDec (digitsToNat mn + 2) else String.mk g2
      | none => natToDec (digitsToNat mn + 2)
    String.mk mn ++ "-" ++ mxs ++ " years"

/-- Regexes free of general capture groups (their captures are digit
groups only). -/
def noGenericGroups : RE → Bool
  | .opt r => noGenericGroups r
  | .seq a b => noGenericGroups a && noGenericGroups b
  | .alt a b => noGenericGroups a && noGenericGroups b
  | .grp _ _ => false
  | _ => true

/-! ## Concrete inputs and spec-side definitions used by the claims -/

/-- Modelled from the spec (claim C3, spec section 4.5): the final score
as the specification states it, round(clamp(sum, 0, 100)); compared with
final_score_of_raw, which is what the code computes. -/
def specRoundedScore (raw : ℚ) : Int := round (min 100 (max 0 raw))

/-- A work-history text with the two ranges of claim C5. -/
def historyText : String :=
  "acme corp" ++ "\n" ++ "2018 - 2021" ++ "\n" ++ "initech" ++ "\n" ++ "2021 - present"

/-- A 71-line resume text: long enough in lines for the size fallback,
short enough in words that the collapsed variant lands in the lowest
bucket. -/
def seventyOneLines : String := String.intercalate "\n" (List.replicate 71 "x")

/-- A normalized resume text containing both a Bachelors and a PhD
keyword. -/
def c6Text : String := "bachelor" ++ aposS ++ "s degree and phd candidate"

/-- A nonempty all-digit string. -/
def isDigitStr (s : String) : Bool := !s.toList.isEmpty && s.toList.all Char.isDigit


/-- All captures of a match are nonempty digit strings (holds for the
digit-group-only patterns). -/
def CapsDigits (caps : Caps) : Prop :=
  ∀ p ∈ caps, p.2 ≠ [] ∧ p.2.all Char.isDigit = true

/-- The scored results of ranking two empty resume records with the
empty query. -/
def c8ScoredPair : List SearchResult :=
  [{ resume := {}, matchScore := 20,
     matchReason := "Experience: Matches required 0+ years.",
     scoreSource := "keyword_matching" },
   { resume := {}, matchScore := 20,
     matchReason := "Experience: Matches required 0+ years.",
     scoreSource := "keyword_matching" }]

/-! ## Claim theorems -/

/-! ### Evaluation lemmas for concrete scorer inputs (the rational
arithmetic does not reduce definitionally, so these are established once
with norm_num and reused) -/

/-- The assembled float value of the literal 0. -/
theorem pyFloatAssemble_zero : pyFloatAssemble false ['0'] [] 0 = .finite 0 := by
  unfold pyFloatAssemble
  rw [show digitsToNat ['0'] = 0 from rfl, show digitsToNat ([] : List Char) = 0 from rfl]
  norm_num [doubleOverflowBound]

/-- float("0") is the finite value 0. -/
theorem pyFloatParse_zero : pyFloatParse "0" = some (.finite 0) := by
  unfold pyFloatParse
  rw [show pyFloatDecode "0" = some (.inr (false, ['0'], [], 0)) from rfl]
  rw [show (some (Sum.inr (false, ['0'], ([] : List Char), (0 : Int)))).map
    (fun d => match d with
      | .inl v => v
      | .inr (sgnNeg, ip, fp, e) => pyFloatAssemble sgnNeg ip fp e) =
    some (pyFloatAssemble false ['0'] [] 0) from rfl]
  rw [pyFloatAssemble_zero]

/-- The defaulted experience string parses to 0 years. -/
theorem parse_resume_experience_zero : parse_resume_experience "0" = .ok 0 := by
  unfold parse_resume_experience
  rw [show pyStrip (removePlus "0") = "0" from rfl, pyFloatParse_zero]
  show Except.ok (ratTrunc 0) = .ok 0
  norm_num [ratTrunc]

/-- The assembled float value of the literal 5. -/
theorem pyFloatAssemble_five : pyFloatAssemble false ['5'] [] 0 = .finite 5 := by
  unfold pyFloatAssemble
  rw [show digitsToNat ['5'] = 5 from rfl, show digitsToNat ([] : List Char) = 0 from rfl]
  norm_num [doubleOverflowBound]

/-- float("5") is the finite value 5. -/
theorem pyFloatParse_five : pyFloatParse "5" = some (.finite 5) := by
  unfold pyFloatParse
  rw [show pyFloatDecode "5" = some (.inr (false, ['5'], [], 0)) from rfl]
  rw [show (some (Sum.inr (false, ['5'], ([] : List Char), (0 : Int)))).map
    (fun d => match d with
      | .inl v => v
      | .inr (sgnNeg, ip, fp, e) => pyFloatAssemble sgnNeg ip fp e) =
    some (pyFloatAssemble false ['5'] [] 0) from rfl]
  rw [pyFloatAssemble_five]

/-- An experience string of "5" parses to 5 years. -/
theorem parse_resume_experience_five : parse_resume_experience "5" = .ok 5 := by
  unfold parse_resume_experience
  rw [show pyStrip (removePlus "5") = "5" from rfl, pyFloatParse_five]
  show Except.ok (ratTrunc 5) = .ok 5
  norm_num [ratTrunc]

/-- Clamping and truncating the raw value 20. -/
theorem final_score_of_raw_twenty : final_score_of_raw 20 = 20 := by
  unfold final_score_of_raw
  rw [show ratTrunc 20 = 20 from by norm_num [ratTrunc]]
  decide

/-- Full evaluation of the scorer on the empty query and the empty
resume record. -/
theorem calc_keyword_empty :
    calculate_keyword_match_score "" ({} : Resume) =
      .ok { score := 20, reason := "Experience: Matches required 0+ years.",
            source := "keyword_matching" } := by
  simp only [calculate_keyword_match_score, show experienceField ({} : Resume) = "0" from rfl,
    parse_resume_experience_zero]
  rw [show summary_subscore "" ({} : Resume) = 0 from rfl,
    show skills_subscore "" ({} : Resume) = 0 from rfl,
    show education_subscore "" ({} : Resume) = 0 from rfl,
    show required_experience "" = 0 from rfl]
  rw [show experience_subscore 0 0 = 100 from by norm_num [experience_subscore]]
  have hsum : ((0 : ℚ) * 0.4 + 0 * 0.3 + 100 * 0.2 + 0 * 0.1) = 20 := by norm_num
  rw [hsum, final_score_of_raw_twenty]
  rfl

/-- C1: for every query string q and every resume record R, the score
field of the MatchResult returned by calculate_keyword_match_score is an
integer with 0 <= score <= 100. -/
theorem c1_keyword_score_in_range (q : String) (r : Resume) (mr : MatchResult)
    (h : calculate_keyword_match_score q r = .ok mr) : 0 ≤ mr.score ∧ mr.score ≤ 100 := by
  unfold calculate_keyword_match_score at h
  cases hp : parse_resume_experience (experienceField r) with
  | error e => rw [hp] at h; cases h
  | ok resExp =>
    rw [hp] at h
    simp only [Except.ok.injEq] at h
    have hs : mr.score = final_score_of_raw (summary_subscore q r * 0.4 +
        skills_subscore q r * 0.3 +
        experience_subscore resExp (required_experience q) * 0.2 +
        education_subscore q r * 0.1) := by
      rw [← h]
    rw [hs]
    unfold final_score_of_raw
    omega

/-- Witness for C1 at the empty query and the empty resume record. -/
theorem c1_keyword_score_in_range_witness : 0 ≤ (20 : Int) ∧ (20 : Int) ≤ 100 :=
  c1_keyword_score_in_range "" {}
    { score := 20, reason := "Experience: Matches required 0+ years.",
      source := "keyword_matching" } calc_keyword_empty

/-- C2: analyzing the empty string with the regex resume analyzer does
not raise (the model is a total function) and returns experience 0 or 1
(the code lands in the final fallback tier, which yields 1), an empty
skills list, and educationLevel High School, for every current year and
every random draw. -/
theorem c2_empty_resume_analysis (currentYear tmpl kChoice : Nat) :
    ((analyze_resume_with_regex currentYear tmpl kChoice "").experience = 0 ∨
      (analyze_resume_with_regex currentYear tmpl kChoice "").experience = 1) ∧
    (analyze_resume_with_regex currentYear tmpl kChoice "").skills = [] ∧
    (analyze_resume_with_regex currentYear tmpl kChoice "").educationLevel = "High School" :=
  ⟨Or.inr rfl, rfl, rfl⟩

/-- Counterexample to C3: on the query 6 years and a resume with
experience 5, the weighted sum is 50/3; the code returns int(50/3) = 16
while the claimed round(clamp(50/3)) is 17 (16.67 is more than one half
away from 16, so every round-to-nearest convention gives 17). -/
theorem c3_truncation_counterexample :
    raw_weighted_score "6 years" ({ experience := some "5" } : Resume) = .ok (50 / 3) ∧
    (calculate_keyword_match_score "6 years" ({ experience := some "5" } : Resume)).map
      MatchResult.score = .ok 16 ∧
    specRoundedScore (50 / 3) = 17 ∧ (16 : Int) ≠ 17 := by
  have hexpf : experienceField ({ experience := some "5" } : Resume) = "5" := rfl
  have hsum : summary_subscore "6 years" ({ experience := some "5" } : Resume) = 0 := rfl
  have hskill : skills_subscore "6 years" ({ experience := some "5" } : Resume) = 0 := rfl
  have hedu : education_subscore "6 years" ({ experience := some "5" } : Resume) = 0 := rfl
  have hreq : required_experience "6 years" = 6 := rfl
  have hes : experience_subscore 5 6 = 250 / 3 := by norm_num [experience_subscore]
  have hrawv : ((0 : ℚ) * 0.4 + 0 * 0.3 + 250 / 3 * 0.2 + 0 * 0.1) = 50 / 3 := by norm_num
  have hfin : final_score_of_raw (50 / 3) = 16 := by
    unfold final_score_of_raw
    rw [show ratTrunc (50 / 3) = 16 from by norm_num [ratTrunc]]
    decide
  refine ⟨?_, ?_, by norm_num [specRoundedScore, round_eq], by decide⟩
  · simp only [raw_weighted_score, hexpf, parse_resume_experience_five, Except.map]
    rw [hsum, hskill, hedu, hreq, hes, hrawv]
  · simp only [calculate_keyword_match_score, hexpf, parse_resume_experience_five]
    rw [hsum, hskill, hedu, hreq, hes, hrawv, hfin]
    rfl

/-- C3 amended: the final score equals the weighted sum of the four
sub-scores (weights 0.4, 0.3, 0.2, 0.1) truncated toward zero by int()
and clamped to [0, 100] - truncation, not rounding to nearest. -/
theorem c3_final_score_truncates (q : String) (r : Resume) :
    (calculate_keyword_match_score q r).map MatchResult.score =
      (raw_weighted_score q r).map final_score_of_raw := by
  unfold calculate_keyword_match_score raw_weighted_score
  cases hp : parse_resume_experience (experienceField r) with
  | error e => rfl
  | ok resExp => rfl

/-- Counterexample to C4: the text the extractors consume is not
whitespace-collapsed; on an input with a double space it differs from the
case-folded whitespace-collapsed copy the claim describes. -/
theorem c4_whitespace_not_collapsed :
    extractorNormalizedText "A  B" ≠ specCollapsedNormalization "A  B" := by decide

set_option maxRecDepth 40000 in
/-- C4 amended: the normalized text handed to the attribute extractors is
exactly the lower-cased input; whitespace and newline runs are preserved,
not collapsed (the collapsed cleaned_text of line 30 is never used).  The
difference is observable: a 71-line input reaches the line-count fallback
of extract_experience and yields 5, while its collapsed copy yields 1. -/
theorem c4_normalization_is_lowercase_only :
    (∀ t, extractorNormalizedText t = pyLower t) ∧
    extract_experience 2026 (extractorNormalizedText seventyOneLines) seventyOneLines = 5 ∧
    extract_experience 2026 (specCollapsedNormalization seventyOneLines) seventyOneLines
      = 1 :=
  ⟨fun _ => rfl, by decide, by decide⟩

/-- C5: with no direct experience statement, the work-history ranges
2018 - 2021 and 2021 - present (current year C at least 2021) are merged
into one span and the result is C - 2018, not the sum of both ranges. -/
theorem c5_history_merged_span (C : Nat) (h : 2021 ≤ C) :
    extract_experience C (pyLower historyText) historyText = C - 2018 := by
  have h1 : searchDirectExp (pyLower historyText) = none := by rfl
  have h2 : dateRanges C (pyLower historyText) = [(2018, 2021), (2021, C)] := by rfl
  have h3 : extract_experience C (pyLower historyText) historyText =
      max (spanFold none 0 (pySort pairLt [(2018, 2021), (2021, C)])) 1 := by
    unfold extract_experience
    rw [h1, h2]
    rfl
  have h4 : pySort pairLt [(2018, 2021), (2021, C)] = [(2018, 2021), (2021, C)] := by rfl
  have h5 : spanFold none 0 [(2018, 2021), (2021, C)] = 3 + (C - 2021) := by
    simp only [spanFold]
    split_ifs <;> omega
  rw [h3, h4, h5]
  omega

/-- Witness for C5 at current year 2026: the merged experience is 8. -/
theorem c5_history_merged_span_witness : 2021 ≤ 2026 ∧
    extract_experience 2026 (pyLower historyText) historyText = 2026 - 2018 :=
  ⟨by norm_num, c5_history_merged_span 2026 (by norm_num)⟩

/-- C6: the education extractor tests the credential patterns in the
fixed order PhD, Masters, Bachelors, Associates, High School and returns
the first match, so every normalized text matching both the Bachelors
pattern and the PhD pattern yields PhD. -/
theorem c6_phd_wins (nt ot : String) (hphd : reTest eduPhdRE nt = true)
    (_hbach : reTest eduBachelorRE nt = true) :
    extract_education_level nt ot = "PhD" := by
  unfold extract_education_level educationPatterns
  simp only [List.find?, hphd]

/-- Witness for C6 on a text containing a Bachelors degree phrase and a
PhD phrase. -/
theorem c6_phd_wins_witness :
    reTest eduPhdRE c6Text = true ∧ reTest eduBachelorRE c6Text = true ∧
    extract_education_level c6Text "" = "PhD" :=
  ⟨by decide, by decide, c6_phd_wins c6Text "" (by decide) (by decide)⟩

/-- Counterexample to C10: an experience string that float-parses to
infinity makes the scorer raise OverflowError (modelled by Except.error):
int(float(s)) raises OverflowError, which the except ValueError handler
does not catch. -/
theorem c10_infinite_experience_raises :
    pyFloatParse "inf" = some PyFloatVal.inf ∧
    calculate_keyword_match_score "python" ({ experience := some "inf" } : Resume) =
      .error () := by
  constructor <;> rfl

/-- C10 amended: the scorer is total over partial resume records except
when the experience string parses to an infinite float (which raises an
uncaught OverflowError): whenever the experience parse succeeds the
scorer returns a MatchResult; an absent summary or skills field
contributes a zero sub-score; and an experience string that does not
parse as a float (or parses to NaN) is treated as 0 years. -/
theorem c10_scorer_total_amended (q : String) (r : Resume) (n : Int)
    (h : parse_resume_experience (experienceField r) = .ok n) :
    (∃ mr, calculate_keyword_match_score q r = .ok mr) ∧
    (r.summary = none → summary_subscore q r = 0) ∧
    (r.skills = none → skills_subscore q r = 0) ∧
    (∀ s, pyFloatParse (pyStrip (removePlus s)) = none →
      parse_resume_experience s = .ok 0) := by
  refine ⟨?_, fun he => by simp [summary_subscore, he],
    fun he => by simp [skills_subscore, he],
    fun s hs => by simp [parse_resume_experience, hs]⟩
  unfold calculate_keyword_match_score
  rw [h]
  exact ⟨_, rfl⟩

/-- Witness for C10 at the empty resume record, whose defaulted
experience string parses to 0. -/
theorem c10_scorer_total_amended_witness :
    parse_resume_experience (experienceField ({} : Resume)) = .ok 0 ∧
    ∃ mr, calculate_keyword_match_score "" ({} : Resume) = .ok mr :=
  ⟨parse_resume_experience_zero,
    (c10_scorer_total_amended "" {} 0 parse_resume_experience_zero).1⟩

theorem pySortInsert_cons_pos {α : Type} (before : α → α → Bool) (x y : α) (ys : List α)
    (hb : before y x = true) :
    pySortInsert before x (y :: ys) = y :: pySortInsert before x ys := by
  simp only [pySortInsert]
  rw [if_pos hb]

theorem pySortInsert_cons_neg {α : Type} (before : α → α → Bool) (x y : α) (ys : List α)
    (hb : before y x = false) :
    pySortInsert before x (y :: ys) = x :: y :: ys := by
  simp only [pySortInsert]
  rw [if_neg (by simp [hb])]

theorem mem_pySortInsert {α : Type} (before : α → α → Bool) (x z : α) (l : List α) :
    z ∈ pySortInsert before x l ↔ z = x ∨ z ∈ l := by
  induction l with
  | nil => simp [pySortInsert]
  | cons y ys ih =>
    cases hb : before y x with
    | true =>
      rw [pySortInsert_cons_pos before x y ys hb]
      simp only [List.mem_cons, ih]
      tauto
    | false =>
      rw [pySortInsert_cons_neg before x y ys hb]
      simp only [List.mem_cons]

theorem scoreInsert_filter (x : SearchResult) (l : List SearchResult) (s : Int) :
    (pySortInsert scoreBefore x l).filter (fun a => a.matchScore == s) =
      if x.matchScore == s then x :: l.filter (fun a => a.matchScore == s)
      else l.filter (fun a => a.matchScore == s) := by
  induction l with
  | nil =>
    by_cases hpx : x.matchScore == s <;> simp [pySortInsert, List.filter, hpx]
  | cons y ys ih =>
    cases hb : scoreBefore y x with
    | true =>
      rw [pySortInsert_cons_pos scoreBefore x y ys hb]
      by_cases hpx : x.matchScore == s
      · have hlt : x.matchScore < y.matchScore := by
          simpa [scoreBefore] using hb
        have hxs : x.matchScore = s := by simpa using hpx
        have hpy : (y.matchScore == s) = false := by
          simp only [beq_eq_false_iff_ne, ne_eq]
          omega
        rw [if_pos hpx]
        rw [List.filter_cons, List.filter_cons, hpy, ih, if_pos hpx]
        simp
      · rw [if_neg hpx]
        rw [List.filter_cons, List.filter_cons, ih, if_neg hpx]
    | false =>
      rw [pySortInsert_cons_neg scoreBefore x y ys hb]
      by_cases hpx : x.matchScore == s
      · rw [if_pos hpx, List.filter_cons]
        simp [hpx]
      · rw [if_neg hpx, List.filter_cons]
        simp [hpx]

theorem scoreSort_filter (l : List SearchResult) (s : Int) :
    (pySort scoreBefore l).filter (fun a => a.matchScore == s) =
      l.filter (fun a => a.matchScore == s) := by
  induction l with
  | nil => rfl
  | cons x xs ih =>
    rw [show pySort scoreBefore (x :: xs) = pySortInsert scoreBefore x (pySort scoreBefore xs)
      from rfl]
    rw [scoreInsert_filter]
    by_cases hpx : x.matchScore == s
    · rw [if_pos hpx, ih, List.filter_cons]
      simp [hpx]
    · rw [if_neg hpx, ih, List.filter_cons]
      simp [hpx]

theorem scoreInsert_sorted (x : SearchResult) (l : List SearchResult)
    (h : l.Pairwise (fun a b => b.matchScore ≤ a.matchScore)) :
    (pySortInsert scoreBefore x l).Pairwise (fun a b => b.matchScore ≤ a.matchScore) := by
  induction l with
  | nil => simp [pySortInsert]
  | cons y ys ih =>
    cases hb : scoreBefore y x with
    | true =>
      rw [pySortInsert_cons_pos scoreBefore x y ys hb]
      refine List.Pairwise.cons ?_ (ih (List.Pairwise.of_cons h))
      intro z hz
      rcases (mem_pySortInsert scoreBefore x z ys).mp hz with hzx | hzy
      · have hlt : x.matchScore < y.matchScore := by simpa [scoreBefore] using hb
        rw [hzx]
        omega
      · exact List.rel_of_pairwise_cons h hzy
    | false =>
      rw [pySortInsert_cons_neg scoreBefore x y ys hb]
      have hyx : y.matchScore ≤ x.matchScore := by
        have hle : ¬ (x.matchScore < y.matchScore) := by simpa [scoreBefore] using hb
        omega
      refine List.Pairwise.cons ?_ h
      intro z hz
      rcases List.mem_cons.mp hz with hzy | hzys
      · subst hzy; omega
      · have := List.rel_of_pairwise_cons h hzys
        omega

theorem scoreSort_sorted (l : List SearchResult) :
    (pySort scoreBefore l).Pairwise (fun a b => b.matchScore ≤ a.matchScore) := by
  induction l with
  | nil => exact List.Pairwise.nil
  | cons x xs ih => exact scoreInsert_sorted x (pySort scoreBefore xs) ih

set_option maxHeartbeats 1000000 in
theorem titled_all_pairwise :
    List.Pairwise (fun a b => pyLower a ≠ pyLower b) (allSkills.map titledSkill) := by
  decide

theorem phaseA_pairwise (nt : String) :
    List.Pairwise (fun a b => pyLower a ≠ pyLower b) (phaseASkills nt) := by
  unfold phaseASkills
  exact List.Pairwise.sublist (List.Sublist.map titledSkill (List.filter_sublist allSkills))
    titled_all_pairwise

theorem addSectionItems_pairwise (items : List String) :
    ∀ acc, List.Pairwise (fun a b => pyLower a ≠ pyLower b) acc →
    List.Pairwise (fun a b => pyLower a ≠ pyLower b) (addSectionItems acc items) := by
  induction items with
  | nil => intro acc h; exact h
  | cons item rest ih =>
    intro acc h
    simp only [addSectionItems]
    by_cases hc : pyStrip item != "" && (pyStrip item).length > 2 &&
        !((acc.map pyLower).contains (pyLower (pyStrip item)))
    · rw [if_pos hc]
      apply ih
      rw [List.pairwise_append]
      refine ⟨h, List.pairwise_singleton _ _, ?_⟩
      intro a ha b hb
      have hb1 : b = pyStrip item := by simpa using hb
      subst hb1
      have hnc : ((acc.map pyLower).contains (pyLower (pyStrip item))) = false := by
        rcases Bool.and_eq_true_iff.mp hc with ⟨_, h2⟩
        simpa using h2
      intro heq
      have hmem : pyLower (pyStrip item) ∈ acc.map pyLower := by
        rw [← heq]
        exact List.mem_map_of_mem pyLower ha
      have hcontra : (acc.map pyLower).contains (pyLower (pyStrip item)) = true :=
        List.elem_eq_true_of_mem hmem
      rw [hnc] at hcontra
      cases hcontra
    · rw [if_neg hc]
      exact ih acc h

theorem sectionStep_pairwise (acc : List String) (pat : RE) (ot : String)
    (h : List.Pairwise (fun a b => pyLower a ≠ pyLower b) acc) :
    List.Pairwise (fun a b => pyLower a ≠ pyLower b)
      (match (reSearch pat ot).bind (fun m => capLookup 1 m.2.1) with
       | some seg => addSectionItems acc (reSplit skillItemSepRE (String.mk seg))
       | none => acc) := by
  cases (reSearch pat ot).bind (fun m => capLookup 1 m.2.1) with
  | some seg => exact addSectionItems_pairwise _ acc h
  | none => exact h

theorem foundSkills_pairwise (nt ot : String) :
    List.Pairwise (fun a b => pyLower a ≠ pyLower b) (foundSkills nt ot) := by
  unfold foundSkills
  simp only [List.foldl_cons, List.foldl_nil]
  exact sectionStep_pairwise _ _ _
    (sectionStep_pairwise _ _ _
      (sectionStep_pairwise _ _ _ (phaseA_pairwise nt)))

theorem dedupAppend_split (l : List String) :
    ∀ u, ∃ s, dedupAppend u l = u ++ s ∧ s.Sublist l := by
  induction l with
  | nil => intro u; exact ⟨[], by simp [dedupAppend]⟩
  | cons x rest ih =>
    intro u
    by_cases hc : u.contains x
    · rcases ih u with ⟨s, hs, hsub⟩
      refine ⟨s, ?_, hsub.trans (List.sublist_cons_self x rest)⟩
      rw [show dedupAppend u (x :: rest) = dedupAppend u rest from by
        simp only [dedupAppend]; rw [if_pos hc]]
      exact hs
    · rcases ih (u ++ [x]) with ⟨s, hs, hsub⟩
      refine ⟨x :: s, ?_, List.cons_sublist_cons.mpr hsub⟩
      rw [show dedupAppend u (x :: rest) = dedupAppend (u ++ [x]) rest from by
        simp only [dedupAppend]; rw [if_neg hc]]
      rw [hs]
      simp

/-- C7: for every input, the skills list produced by extract_skills
contains no two entries equal ignoring case, has length at most 15, and
is a sublist of the collected skills in first-seen order; in particular
the text with Python twice and python once yields exactly one Python
entry. -/
theorem c7_skills_invariants :
    (∀ nt ot, List.Pairwise (fun a b => pyLower a ≠ pyLower b) (extract_skills nt ot) ∧
      (extract_skills nt ot).length ≤ 15 ∧
      (extract_skills nt ot).Sublist (foundSkills nt ot)) ∧
    extract_skills (pyLower "Python Python python") "Python Python python" = ["Python"] := by
  constructor
  · intro nt ot
    rcases dedupAppend_split (foundSkills nt ot) [] with ⟨s, hs, hsub⟩
    have hdedup : dedupAppend [] (foundSkills nt ot) = s := by simpa using hs
    have hsub2 : (extract_skills nt ot).Sublist (foundSkills nt ot) := by
      unfold extract_skills
      rw [hdedup]
      exact (List.take_sublist 15 s).trans hsub
    refine ⟨List.Pairwise.sublist hsub2 (foundSkills_pairwise nt ot), ?_, hsub2⟩
    unfold extract_skills
    rw [hdedup, List.length_take]
    omega
  · decide


theorem capsDigits_nil : CapsDigits [] := by
  intro p hp
  cases hp

theorem capsDigits_append {a b : Caps} (ha : CapsDigits a) (hb : CapsDigits b) :
    CapsDigits (a ++ b) := by
  intro p hp
  rcases List.mem_append.mp hp with h | h
  · exact ha p h
  · exact hb p h

theorem mem_rangeDownTo1 {j k : Nat} (h : j ∈ rangeDownTo1 k) : 1 ≤ j ∧ j ≤ k := by
  induction k with
  | zero => cases h
  | succ n ih =>
    rcases List.mem_cons.mp h with rfl | h2
    · omega
    · have := ih h2
      omega

theorem runRE_caps_digits (t : List Char) :
    ∀ re : RE, noGenericGroups re = true → ∀ i cp, cp ∈ runRE t re i → CapsDigits cp.1 := by
  intro re
  induction re with
  | eps =>
    intro _ i cp hcp
    simp only [runRE, List.mem_singleton] at hcp
    subst hcp
    exact capsDigits_nil
  | lit s0 =>
    intro _ i cp hcp
    simp only [runRE] at hcp
    split at hcp
    · simp only [List.mem_singleton] at hcp
      subst hcp
      exact capsDigits_nil
    · cases hcp
  | litCI s0 =>
    intro _ i cp hcp
    simp only [runRE] at hcp
    split at hcp
    · simp only [List.mem_singleton] at hcp
      subst hcp
      exact capsDigits_nil
    · cases hcp
  | cls p =>
    intro _ i cp hcp
    simp only [runRE] at hcp
    split at hcp
    · split at hcp
      · simp only [List.mem_singleton] at hcp
        subst hcp
        exact capsDigits_nil
      · cases hcp
    · cases hcp
  | many p =>
    intro _ i cp hcp
    simp only [runRE] at hcp
    rcases List.mem_map.mp hcp with ⟨j, _, rfl⟩
    exact capsDigits_nil
  | many1 p =>
    intro _ i cp hcp
    simp only [runRE] at hcp
    rcases List.mem_map.mp hcp with ⟨j, _, rfl⟩
    exact capsDigits_nil
  | manyLazy p =>
    intro _ i cp hcp
    simp only [runRE] at hcp
    rcases List.mem_map.mp hcp with ⟨j, _, rfl⟩
    exact capsDigits_nil
  | opt r ih =>
    intro hg i cp hcp
    simp only [runRE] at hcp
    rcases List.mem_append.mp hcp with h | h
    · exact ih hg i cp h
    · simp only [List.mem_singleton] at h
      subst h
      exact capsDigits_nil
  | seq a b iha ihb =>
    intro hg i cp hcp
    rcases Bool.and_eq_true_iff.mp (by simpa [noGenericGroups] using hg) with ⟨hga, hgb⟩
    simp only [runRE] at hcp
    rcases List.mem_flatMap.mp hcp with ⟨pa, hpa, hpb⟩
    rcases List.mem_map.mp hpb with ⟨pb, hpbm, rfl⟩
    exact capsDigits_append (iha hga i pa hpa) (ihb hgb pa.2 pb hpbm)
  | alt a b iha ihb =>
    intro hg i cp hcp
    rcases Bool.and_eq_true_iff.mp (by simpa [noGenericGroups] using hg) with ⟨hga, hgb⟩
    simp only [runRE] at hcp
    rcases List.mem_append.mp hcp with h | h
    · exact iha hga i cp h
    · exact ihb hgb i cp h
  | grp n r ih =>
    intro hg
    simp [noGenericGroups] at hg
  | digitsG n =>
    intro _ i cp hcp
    simp only [runRE] at hcp
    rcases List.mem_map.mp hcp with ⟨j, hj, rfl⟩
    rcases mem_rangeDownTo1 hj with ⟨hj1, hj2⟩
    intro pr hpr
    simp only [List.mem_singleton] at hpr
    subst hpr
    constructor
    · have hlen : ((classRun Char.isDigit t i).take j).length = j := by
        rw [List.length_take]
        omega
      intro hnil
      have hnil2 : List.take j (classRun Char.isDigit t i) = [] := hnil
      rw [hnil2] at hlen
      simp at hlen
      omega
    · rw [List.all_eq_true]
      intro c hc
      exact List.mem_takeWhile_imp (List.mem_of_mem_take hc)
  | digits4G n =>
    intro _ i cp hcp
    simp only [runRE] at hcp
    split at hcp
    · rename_i a b c d _
      split at hcp
      · rename_i hdig
        simp only [List.mem_singleton] at hcp
        subst hcp
        intro pr hpr
        simp only [List.mem_singleton] at hpr
        subst hpr
        refine ⟨by simp, ?_⟩
        simp only [List.all_cons, List.all_nil, Bool.and_true]
        rcases Bool.and_eq_true_iff.mp hdig with ⟨h3, h4⟩
        rcases Bool.and_eq_true_iff.mp h3 with ⟨h5, h6⟩
        rcases Bool.and_eq_true_iff.mp h5 with ⟨h7, h8⟩
        simp [h4, h6, h7, h8]
      · cases hcp
    · cases hcp
  | wordB =>
    intro _ i cp hcp
    simp only [runRE] at hcp
    split at hcp
    · simp only [List.mem_singleton] at hcp
      subst hcp
      exact capsDigits_nil
    · cases hcp
  | bos =>
    intro _ i cp hcp
    simp only [runRE] at hcp
    split at hcp
    · simp only [List.mem_singleton] at hcp
      subst hcp
      exact capsDigits_nil
    · cases hcp
  | eosD =>
    intro _ i cp hcp
    simp only [runRE] at hcp
    split at hcp
    · simp only [List.mem_singleton] at hcp
      subst hcp
      exact capsDigits_nil
    · cases hcp

theorem searchFromAux_mem (t : List Char) (re : RE) :
    ∀ fuel i st caps e, searchFromAux t re fuel i = some (st, caps, e) →
      (caps, e) ∈ runRE t re st := by
  intro fuel
  induction fuel with
  | zero =>
    intro i st caps e h
    cases h
  | succ f ih =>
    intro i st caps e h
    simp only [searchFromAux] at h
    split at h
    · rename_i c e2 rest heq
      injection h with h1
      injection h1 with h2 h3
      injection h3 with h4 h5
      subst h2
      subst h4
      subst h5
      rw [heq]
      exact List.mem_cons_self _ _
    · rename_i heq
      split at h
      · exact ih (i + 1) st caps e h
      · cases h

theorem capLookup_digits {caps : Caps} (hc : CapsDigits caps) (n : Nat) (s : List Char)
    (h : capLookup n caps = some s) : s ≠ [] ∧ s.all Char.isDigit = true := by
  unfold capLookup at h
  rcases Option.map_eq_some'.mp h with ⟨p, hp, hps⟩
  subst hps
  exact hc p (List.mem_of_find?_eq_some hp)

theorem scanPatternG2_digits (p : RE) (hp : noGenericGroups p = true)
    (jd : String) (g1v : List Char) (mx : Option (List Char))
    (h : (reSearch p jd).bind (fun m => (capLookup 1 m.2.1).map
      (fun g1 => (g1, capLookup 2 m.2.1))) = some (g1v, mx)) :
    (g1v ≠ [] ∧ g1v.all Char.isDigit = true) ∧
      ∀ g2, mx = some g2 → g2 ≠ [] ∧ g2.all Char.isDigit = true := by
  rcases Option.bind_eq_some.mp h with ⟨m, hm, hmap⟩
  obtain ⟨st, caps, e⟩ := m
  have hmem : (caps, e) ∈ runRE jd.toList p st :=
    searchFromAux_mem jd.toList p _ 0 st caps e hm
  have hcd : CapsDigits caps := runRE_caps_digits jd.toList p hp st (caps, e) hmem
  rcases Option.map_eq_some'.mp hmap with ⟨g, hg, hpair⟩
  have hg1 : g = g1v := congrArg Prod.fst hpair
  subst hg1
  have hmx : capLookup 2 caps = mx := congrArg Prod.snd hpair
  refine ⟨capLookup_digits hcd 1 g hg, ?_⟩
  intro g2 hg2
  rw [← hmx] at hg2
  exact capLookup_digits hcd 2 g2 hg2

theorem scanPatternNoG2_digits (p : RE) (hp : noGenericGroups p = true)
    (jd : String) (g1v : List Char) (mx : Option (List Char))
    (h : (reSearch p jd).bind (fun m => (capLookup 1 m.2.1).map
      (fun g1 => (g1, (none : Option (List Char))))) = some (g1v, mx)) :
    (g1v ≠ [] ∧ g1v.all Char.isDigit = true) ∧ mx = none := by
  rcases Option.bind_eq_some.mp h with ⟨m, hm, hmap⟩
  obtain ⟨st, caps, e⟩ := m
  have hmem : (caps, e) ∈ runRE jd.toList p st :=
    searchFromAux_mem jd.toList p _ 0 st caps e hm
  have hcd : CapsDigits caps := runRE_caps_digits jd.toList p hp st (caps, e) hmem
  rcases Option.map_eq_some'.mp hmap with ⟨g, hg, hpair⟩
  have hg1 : g = g1v := congrArg Prod.fst hpair
  subst hg1
  have hmx : (none : Option (List Char)) = mx := congrArg Prod.snd hpair
  exact ⟨capLookup_digits hcd 1 g hg, hmx.symm⟩

theorem jdScan_digits (jd : String) (mn : List Char) (mx : Option (List Char))
    (h : jdScan jd = some (mn, mx)) :
    (mn ≠ [] ∧ mn.all Char.isDigit = true) ∧
      ∀ g2, mx = some g2 → g2 ≠ [] ∧ g2.all Char.isDigit = true := by
  unfold jdScan at h
  split at h
  · rename_i r heq
    injection h with h1
    subst h1
    exact scanPatternG2_digits jdPat1 (by rfl) jd mn mx heq
  · split at h
    · rename_i r heq
      injection h with h1
      subst h1
      rcases scanPatternNoG2_digits jdPat2 (by rfl) jd mn mx heq with ⟨hd, hn⟩
      refine ⟨hd, ?_⟩
      intro g2 hg2
      rw [hn] at hg2
      cases hg2
    · split at h
      · rename_i r heq
        injection h with h1
        subst h1
        rcases scanPatternNoG2_digits jdPat3 (by rfl) jd mn mx heq with ⟨hd, hn⟩
        refine ⟨hd, ?_⟩
        intro g2 hg2
        rw [hn] at hg2
        cases hg2
      · rcases scanPatternNoG2_digits jdPat4 (by rfl) jd mn mx h with ⟨hd, hn⟩
        refine ⟨hd, ?_⟩
        intro g2 hg2
        rw [hn] at hg2
        cases hg2

theorem digitChar_isDigit (n : Nat) (h : n < 10) : (Char.ofNat (48 + n)).isDigit = true := by
  interval_cases n <;> decide

theorem natToDecAux_digits : ∀ fuel n, (natToDecAux fuel n).all Char.isDigit = true := by
  intro fuel
  induction fuel with
  | zero => intro n; rfl
  | succ f ih =>
    intro n
    simp only [natToDecAux]
    split
    · rename_i h
      simp [digitChar_isDigit n h]
    · rw [List.all_append]
      rw [ih (n / 10)]
      simp [digitChar_isDigit (n % 10) (Nat.mod_lt _ (by norm_num))]

theorem natToDecAux_ne_nil (fuel n : Nat) : natToDecAux (fuel + 1) n ≠ [] := by
  simp only [natToDecAux]
  split
  · simp
  · simp

theorem natToDec_digits (n : Nat) : isDigitStr (natToDec n) = true := by
  unfold isDigitStr natToDec
  rw [show (String.mk (natToDecAux (n + 1) n)).toList = natToDecAux (n + 1) n from rfl]
  rw [natToDecAux_digits]
  have h := natToDecAux_ne_nil n n
  simp only [Bool.and_true]
  cases hl : natToDecAux (n + 1) n with
  | nil => exact absurd hl h
  | cons a l => rfl

theorem strMk_isDigitStr {l : List Char} (h1 : l ≠ []) (h2 : l.all Char.isDigit = true) :
    isDigitStr (String.mk l) = true := by
  unfold isDigitStr
  rw [show (String.mk l).toList = l from rfl, h2]
  simp only [Bool.and_true]
  cases hl : l with
  | nil => exact absurd hl h1
  | cons a r => rfl

/-- C9: for every job-description text the extracted experience field
has the form X-Y years with X and Y digit strings; it is 2-4 years when
no pattern matches; and when a pattern supplies only a minimum N the
result is N-(N+2) years. -/
theorem c9_jd_experience_form (jd : String) :
    (∃ X Y : String, isDigitStr X = true ∧ isDigitStr Y = true ∧
      jd_experience jd = X ++ "-" ++ Y ++ " years") ∧
    (jdScan jd = none → jd_experience jd = "2-4 years") ∧
    (∀ mn, jdScan jd = some (mn, none) →
      jd_experience jd = String.mk mn ++ "-" ++ natToDec (digitsToNat mn + 2) ++ " years") := by
  refine ⟨?_, ?_, ?_⟩
  · cases hscan : jdScan jd with
    | none =>
      refine ⟨"2", "4", by decide, by decide, ?_⟩
      unfold jd_experience
      rw [hscan]
      decide
    | some r =>
      obtain ⟨mn, mx⟩ := r
      rcases jdScan_digits jd mn mx hscan with ⟨⟨hmn1, hmn2⟩, hg2⟩
      cases mx with
      | none =>
        refine ⟨String.mk mn, natToDec (digitsToNat mn + 2),
          strMk_isDigitStr hmn1 hmn2, natToDec_digits _, ?_⟩
        unfold jd_experience
        rw [hscan]
      | some g2 =>
        rcases hg2 g2 rfl with ⟨hg2a, hg2b⟩
        refine ⟨String.mk mn, String.mk g2, strMk_isDigitStr hmn1 hmn2,
          strMk_isDigitStr hg2a hg2b, ?_⟩
        unfold jd_experience
        rw [hscan]
        have hemp : g2.isEmpty = false := by
          cases hg : g2 with
          | nil => exact absurd hg hg2a
          | cons a r => rfl
        simp only [hemp]
        rfl
  · intro h
    unfold jd_experience
    rw [h]
  · intro mn h
    unfold jd_experience
    rw [h]


theorem score_all_pair :
    score_all_resumes "" [({} : Resume), ({} : Resume)] = .ok c8ScoredPair := by
  simp only [score_all_resumes, List.mapM, List.mapM.loop, calc_keyword_empty, Except.map,
    Except.bind, Except.pure]
  rfl

/-- C8: the ranking driver sorts the scored resume collection descending
by score with a stable sort: the output is sorted nonincreasingly, and
for every score value the results carrying that score appear in their
original relative order (filtering the output at any score gives exactly
the filtered input, unreordered). -/
theorem c8_ranking_stable (q : String) (rs : List Resume) (l : List SearchResult)
    (h : score_all_resumes q rs = .ok l) :
    search_resume_rank q rs = .ok (pySort scoreBefore l) ∧
    (pySort scoreBefore l).Pairwise (fun a b => b.matchScore ≤ a.matchScore) ∧
    ∀ s : Int, (pySort scoreBefore l).filter (fun a => a.matchScore == s) =
      l.filter (fun a => a.matchScore == s) := by
  refine ⟨?_, scoreSort_sorted l, fun s => scoreSort_filter l s⟩
  unfold search_resume_rank
  rw [h]
  rfl

/-- Witness for C8: ranking two identical empty resume records (equal
scores of 20) with the empty query. -/
theorem c8_ranking_stable_witness :
    score_all_resumes "" [({} : Resume), ({} : Resume)] = .ok c8ScoredPair ∧
    search_resume_rank "" [({} : Resume), ({} : Resume)] =
      .ok (pySort scoreBefore c8ScoredPair) :=
  ⟨score_all_pair, (c8_ranking_stable "" [{}, {}] c8ScoredPair score_all_pair).1⟩

/-- Witness for C9: the text minimum 3 years matches the third pattern
with no maximum group and yields 3-5 years. -/
theorem c9_jd_experience_form_witness :
    jdScan "minimum 3 years" = some (['3'], none) ∧
    jd_experience "minimum 3 years" = "3-5 years" := by
  refine ⟨by decide, ?_⟩
  have h := (c9_jd_experience_form "minimum 3 years").2.2 ['3'] (by decide)
  rw [h]
  decide
